import Mathlib

/-
Verification of the orbital-field ("black hole") canvas renderer.

The source is a single React component whose effect body holds module-level
mutable state (viewport dimensions, a starfield, a pool of Particle sprites)
and three families of operations:

  * generateStars           — regenerates the 500-star background
  * Particle.reset / update — per-sprite simulation (spiral infall, trail)
  * resize                  — viewport change: new dims, new stars, reset all

We embed the state as immutable structures over the exact reals, with every
Math.random() outcome passed in explicitly (its contract: each draw lies in
the half-open interval from 0 to 1).  Imperative field mutations become a
chain of intermediate values (dist1, angle1, ...) reflecting the order in
which the source mutates fields, since later assignments read earlier ones.
-/

namespace BlackHole

set_option maxRecDepth 8192
set_option maxHeartbeats 1000000

noncomputable section

/-- The fixed capture radius of the central body; source constant
`blackHoleRadius = 50`. -/
def blackHoleRadius : ℝ := 50

/-- Module-level viewport state: `width`, `height`, `centerX`, `centerY`.
In the source, `resize` always sets `centerX = width / 2` and
`centerY = height / 2`. -/
structure Env where
  width : ℝ
  height : ℝ
  centerX : ℝ
  centerY : ℝ

/-- A background star as pushed by `generateStars`. -/
structure Star where
  x : ℝ
  y : ℝ
  size : ℝ
  alpha : ℝ

/-- The star produced by iteration `i` of the loop in `generateStars`;
`f` is the stream of `Math.random()` outputs, four draws per star, in the
order the source consumes them (x, y, size, alpha). -/
def mkStar (w h : ℝ) (f : ℕ → ℝ) (i : ℕ) : Star :=
  { x := f (4 * i) * w
  , y := f (4 * i + 1) * h
  , size := f (4 * i + 2) * 1 + 0.5
  , alpha := f (4 * i + 3) * 0.5 + 0.5 }

/-- Embeds `generateStars`: the 500 stars pushed onto the fresh `stars`
array.  The result depends only on the viewport and the random stream —
the previous star set is discarded wholesale. -/
def generateStars (w h : ℝ) (f : ℕ → ℝ) : List Star :=
  (List.range 500).map (mkStar w h f)

/-- One entry of a sprite's motion trail (`this.trail.push({...})`). -/
structure TrailPoint where
  x : ℝ
  y : ℝ
  rotation : ℝ
  size : ℝ
  alpha : ℝ

/-- The eight `Math.random()` draws consumed by one call to
`Particle.reset`, in call order. -/
structure Rand8 where
  rx : ℝ
  ry : ℝ
  rsize : ℝ
  rrot : ℝ
  rspin : ℝ
  rangle : ℝ
  rspeed : ℝ
  rang : ℝ

/-- Contract of `Math.random()`: every draw lies in the half-open unit
interval. -/
def Rand8.Valid (r : Rand8) : Prop :=
  (0 ≤ r.rx ∧ r.rx < 1) ∧ (0 ≤ r.ry ∧ r.ry < 1) ∧
  (0 ≤ r.rsize ∧ r.rsize < 1) ∧ (0 ≤ r.rrot ∧ r.rrot < 1) ∧
  (0 ≤ r.rspin ∧ r.rspin < 1) ∧ (0 ≤ r.rangle ∧ r.rangle < 1) ∧
  (0 ≤ r.rspeed ∧ r.rspeed < 1) ∧ (0 ≤ r.rang ∧ r.rang < 1)

/-- The `Particle` class fields.  `image` is an opaque identifier for the
shared `HTMLImageElement` reference. -/
structure Particle where
  image : ℕ
  x : ℝ
  y : ℝ
  size : ℝ
  alpha : ℝ
  rotation : ℝ
  spinSpeed : ℝ
  angle : ℝ
  distance : ℝ
  speed : ℝ
  angularSpeed : ℝ
  trail : List TrailPoint
  trailLength : ℕ

/-- Embeds `Particle.reset`: every motion field is re-randomized (the image
reference is kept), `alpha` is set to 1, `distance` becomes the Euclidean
distance from the fresh position to the center, and the trail is cleared. -/
def Particle.reset (p : Particle) (env : Env) (r : Rand8) : Particle :=
  { image := p.image
  , x := r.rx * env.width
  , y := r.ry * env.height
  , size := r.rsize * 40 + 20
  , alpha := 1
  , rotation := r.rrot * Real.pi * 2
  , spinSpeed := (r.rspin - 0.5) * 0.1
  , angle := r.rangle * Real.pi * 2
  , distance := Real.sqrt ((r.rx * env.width - env.centerX) ^ 2 +
      (r.ry * env.height - env.centerY) ^ 2)
  , speed := r.rspeed * 0.005 + 0.01
  , angularSpeed := r.rang * 0.02 + 0.01
  , trail := []
  , trailLength := 20 }

/-- Embeds `new Particle(img)`: the constructor zero-initializes the fields
and immediately calls `reset`, which overwrites every non-image field. -/
def Particle.new (img : ℕ) (env : Env) (r : Rand8) : Particle :=
  Particle.reset ⟨img, 0, 0, 0, 1, 0, 0, 0, 0, 0, 0, [], 20⟩ env r

/-- First mutation of `update`: the new radial distance,
`distance *= 1 - speed * (blackHoleRadius / distance)`. -/
def Particle.dist1 (p : Particle) : ℝ :=
  p.distance * (1 - p.speed * (blackHoleRadius / p.distance))

/-- Second mutation of `update`: the new polar angle; the source reads the
already-updated distance. -/
def Particle.angle1 (p : Particle) : ℝ :=
  p.angle + p.angularSpeed * (blackHoleRadius / p.dist1)

/-- Third mutation of `update`: the new spin rotation. -/
def Particle.rot1 (p : Particle) : ℝ :=
  p.rotation + p.spinSpeed

/-- New x position from polar coordinates (reads updated angle and
distance). -/
def Particle.x1 (p : Particle) (env : Env) : ℝ :=
  env.centerX + Real.cos p.angle1 * p.dist1

/-- New y position from polar coordinates. -/
def Particle.y1 (p : Particle) (env : Env) : ℝ :=
  env.centerY + Real.sin p.angle1 * p.dist1

/-- New size: multiplicative shrink applies only within three capture radii
of the center (reads the updated distance). -/
def Particle.size1 (p : Particle) : ℝ :=
  if p.dist1 < blackHoleRadius * 3 then p.size * 0.98 else p.size

/-- New opacity: multiplicative fade applies only within three capture
radii of the center. -/
def Particle.alpha1 (p : Particle) : ℝ :=
  if p.dist1 < blackHoleRadius * 3 then p.alpha * 0.99 else p.alpha

/-- The render-state snapshot `update` pushes onto the trail: the
just-computed position, rotation, size and opacity of this tick. -/
def Particle.snap (p : Particle) (env : Env) : TrailPoint :=
  ⟨p.x1 env, p.y1 env, p.rot1, p.size1, p.alpha1⟩

/-- The trail after `update`: push the snapshot, then `shift()` (drop the
oldest, front entry) exactly when the length exceeds `trailLength`. -/
def Particle.trailNext (p : Particle) (env : Env) : List TrailPoint :=
  let t := p.trail ++ [p.snap env]
  if p.trailLength < t.length then t.tail else t

/-- Embeds the body of `Particle.update` up to (but not including) the
final swallowed-check: all field mutations of one simulation tick. -/
def Particle.updateRaw (p : Particle) (env : Env) : Particle :=
  { image := p.image
  , x := p.x1 env
  , y := p.y1 env
  , size := p.size1
  , alpha := p.alpha1
  , rotation := p.rot1
  , spinSpeed := p.spinSpeed
  , angle := p.angle1
  , distance := p.dist1
  , speed := p.speed
  , angularSpeed := p.angularSpeed
  , trail := p.trailNext env
  , trailLength := p.trailLength }

/-- The swallowed-check at the end of `update`, evaluated on the mutated
fields: `distance < blackHoleRadius || size < 5 || alpha < 0.1`. -/
def resetCond (p : Particle) : Prop :=
  p.distance < blackHoleRadius ∨ p.size < 5 ∨ p.alpha < 0.1

instance (p : Particle) : Decidable (resetCond p) := by
  unfold resetCond; infer_instance

/-- Embeds `Particle.update` in full: perform the tick's mutations, then
reset (consuming fresh random draws `r`) when the swallowed-check fires. -/
def Particle.update (p : Particle) (env : Env) (r : Rand8) : Particle :=
  let q := p.updateRaw env
  if resetCond q then q.reset env r else q

/-- An externally driven operation on one sprite: a `reset` call (resize or
the explore button) or an `update` call (one frame), each carrying the
random draws a reset would consume. -/
inductive Op where
  | reset (r : Rand8)
  | update (r : Rand8)

/-- Applies one operation to a sprite. -/
def Particle.applyOp (p : Particle) (env : Env) : Op → Particle
  | Op.reset r => p.reset env r
  | Op.update r => p.update env r

/-- Runs a sequence of operations on a sprite, oldest first. -/
def Particle.run (p : Particle) (env : Env) (ops : List Op) : Particle :=
  ops.foldl (fun q op => q.applyOp env op) p

/-- Iterates the raw tick `n` times, never taking the internal reset
branch: the trajectory of repeated `update()` calls up to the first tick
whose swallowed-check fires. -/
def Particle.iterRaw (p : Particle) (env : Env) : ℕ → Particle
  | 0 => p
  | n + 1 => (p.iterRaw env n).updateRaw env

/-- One asynchronous image-load outcome: the image identifier, whether
`onload` (as opposed to `onerror`) fired, and the random draws for the up
to two `Particle` constructions. -/
structure LoadEvent where
  img : ℕ
  success : Bool
  r1 : Rand8
  r2 : Rand8

/-- One guarded push from the `onload` callback:
`if (particles.length < 8) particles.push(new Particle(img))`. -/
def pushIfRoom (pool : List Particle) (p : Particle) : List Particle :=
  if pool.length < 8 then pool ++ [p] else pool

/-- One load callback firing: `onload` pushes up to two sprites (each push
guarded by the pool cap of 8); `onerror` only logs and pushes nothing. -/
def loadStep (env : Env) (pool : List Particle) (e : LoadEvent) :
    List Particle :=
  if e.success then
    pushIfRoom (pushIfRoom pool (Particle.new e.img env e.r1))
      (Particle.new e.img env e.r2)
  else pool

/-- The sprite pool after a sequence of load outcomes, starting from the
empty `particles` array. -/
def loadAll (env : Env) (events : List LoadEvent) : List Particle :=
  events.foldl (loadStep env) []

/-- Embeds `particles.forEach((p) => p.reset())`: each sprite consumes its
own eight draws, indexed by its position (offset `i`) in the pool. -/
def resetEach (env : Env) (rs : ℕ → Rand8) :
    List Particle → ℕ → List Particle
  | [], _ => []
  | p :: ps, i => p.reset env (rs i) :: resetEach env rs ps (i + 1)

/-- Embeds the per-frame `particles.forEach((p) => { p.update(); ... })`:
each sprite's potential internal reset consumes its own draws. -/
def updateEach (env : Env) (rs : ℕ → Rand8) :
    List Particle → ℕ → List Particle
  | [], _ => []
  | p :: ps, i => p.update env (rs i) :: updateEach env rs ps (i + 1)

/-- The renderer's module-level mutable state: viewport, starfield, sprite
pool, and the pending animation-frame handle (`animationRef.current`). -/
structure Renderer where
  env : Env
  stars : List Star
  particles : List Particle
  animHandle : ℕ

/-- Embeds the `resize` handler: store the new window dimensions, set the
center to their midpoint, regenerate the starfield wholesale, and reset
every sprite currently in the pool.  Nothing else is touched. -/
def Renderer.resize (st : Renderer) (w h : ℝ) (f : ℕ → ℝ)
    (rs : ℕ → Rand8) : Renderer :=
  { env := ⟨w, h, w / 2, h / 2⟩
  , stars := generateStars w h f
  , particles := resetEach ⟨w, h, w / 2, h / 2⟩ rs st.particles 0
  , animHandle := st.animHandle }

/-- A concrete 2-by-2 viewport with the center the source's `resize` would
compute. -/
def env0 : Env := ⟨2, 2, 1, 1⟩

/-- The random outcome in which every draw returns one half — a value
`Math.random()` can produce. -/
def randHalf : Rand8 := ⟨0.5, 0.5, 0.5, 0.5, 0.5, 0.5, 0.5, 0.5⟩

/-- A concrete sprite state: the spec's scenario sprite (distance 150,
decay speed 0.01) with size 30 and full opacity. -/
def sampleParticle : Particle :=
  ⟨0, 0, 0, 30, 1, 0, 0, 0, 150, 0.01, 0.02, [], 20⟩

/-- The all-zero random stream, a possible sequence of draws. -/
def zeroStream : ℕ → ℝ := fun _ => 0

/-- The trail invariant maintained by every sprite the renderer can
produce: at most 20 entries, and the source's `trailLength` field still
holds its constant value 20. -/
def TrailInv (p : Particle) : Prop :=
  p.trail.length ≤ 20 ∧ p.trailLength = 20

/-- A load outcome in which `onerror` fired. -/
def failEvent : LoadEvent := ⟨0, false, randHalf, randHalf⟩

/-- A load outcome in which `onload` fired. -/
def okEvent : LoadEvent := ⟨1, true, randHalf, randHalf⟩

end

section Lemmas

variable (env : Env) (p : Particle)

theorem updateRaw_distance : (p.updateRaw env).distance = p.dist1 := rfl

theorem updateRaw_speed : (p.updateRaw env).speed = p.speed := rfl

theorem updateRaw_size : (p.updateRaw env).size = p.size1 := rfl

theorem updateRaw_alpha : (p.updateRaw env).alpha = p.alpha1 := rfl

theorem updateRaw_image : (p.updateRaw env).image = p.image := rfl

theorem updateRaw_trail : (p.updateRaw env).trail = p.trailNext env := rfl

theorem updateRaw_trailLength : (p.updateRaw env).trailLength = p.trailLength :=
  rfl

theorem blackHoleRadius_pos : (0 : ℝ) < blackHoleRadius := by
  unfold blackHoleRadius; norm_num

/-- With a nonzero current distance, the source's multiplicative decay is
algebraically a constant decrement of speed times the capture radius. -/
theorem dist1_eq (h : p.distance ≠ 0) :
    p.dist1 = p.distance - p.speed * blackHoleRadius := by
  unfold Particle.dist1
  field_simp

theorem dist1_of_zero (h : p.distance = 0) : p.dist1 = 0 := by
  unfold Particle.dist1
  rw [h]
  ring

theorem iterRaw_zero : p.iterRaw env 0 = p := rfl

theorem iterRaw_succ (n : ℕ) :
    p.iterRaw env (n + 1) = (p.iterRaw env n).updateRaw env := rfl

theorem iterRaw_shift (n : ℕ) :
    p.iterRaw env (n + 1) = (p.updateRaw env).iterRaw env n := by
  induction n with
  | zero => rfl
  | succ n ih => rw [iterRaw_succ, ih, iterRaw_succ]

theorem iterRaw_speed (n : ℕ) : (p.iterRaw env n).speed = p.speed := by
  induction n with
  | zero => rfl
  | succ n ih => rw [iterRaw_succ, updateRaw_speed, ih]

/-- Any sprite whose per-tick decrement is the fixed positive value `s` and
whose distance is at most `N` decrements above the capture radius satisfies
the swallowed-check within finitely many raw ticks. -/
theorem resetCond_within (s : ℝ) (hs : 0 < s) :
    ∀ N : ℕ, ∀ p : Particle, p.speed * blackHoleRadius = s →
      p.distance ≤ blackHoleRadius + N * s →
      ∃ n : ℕ, 0 < n ∧ resetCond (p.iterRaw env n) := by
  intro N
  induction N with
  | zero =>
    intro p hps hd
    refine ⟨1, Nat.one_pos, Or.inl ?_⟩
    show (p.updateRaw env).distance < blackHoleRadius
    rcases eq_or_ne p.distance 0 with h0 | h0
    · rw [updateRaw_distance, dist1_of_zero p h0]
      exact blackHoleRadius_pos
    · rw [updateRaw_distance, dist1_eq p h0, hps]
      push_cast at hd
      linarith
  | succ N ih =>
    intro p hps hd
    by_cases h : p.distance ≤ blackHoleRadius + N * s
    · exact ih p hps h
    · push_neg at h
      have hne : p.distance ≠ 0 := by
        have h1 : (0 : ℝ) ≤ (N : ℝ) * s := by positivity
        have := blackHoleRadius_pos
        intro h0
        rw [h0] at h
        linarith
      have h1 : (p.updateRaw env).distance = p.distance - s := by
        rw [updateRaw_distance, dist1_eq p hne, hps]
      have h2 : (p.updateRaw env).speed * blackHoleRadius = s := by
        rw [updateRaw_speed]; exact hps
      have h3 : (p.updateRaw env).distance ≤ blackHoleRadius + N * s := by
        rw [h1]
        push_cast at hd ⊢
        linarith
      obtain ⟨n, hn, hcond⟩ := ih (p.updateRaw env) h2 h3
      refine ⟨n + 1, Nat.succ_pos n, ?_⟩
      rw [iterRaw_shift]
      exact hcond

end Lemmas

/-- C1: starting from any sprite state with positive decay speed and
positive distance (every freshly reset sprite qualifies), repeated raw
ticks strictly decrease the distance while it is still at least the
capture radius, and after finitely many ticks the swallowed-check
(distance below the capture radius, or size or opacity below their
thresholds) fires, so repeated `update()` calls with no intervening
external reset eventually trigger a `reset`. -/
theorem claim1_updates_eventually_reset (env : Env) (p : Particle)
    (hs : 0 < p.speed) (_hd : 0 < p.distance) :
    (∀ k : ℕ, blackHoleRadius ≤ (p.iterRaw env k).distance →
      (p.iterRaw env (k + 1)).distance < (p.iterRaw env k).distance) ∧
    ∃ n : ℕ, 0 < n ∧ resetCond (p.iterRaw env n) := by
  have hb := blackHoleRadius_pos
  have hspos : 0 < p.speed * blackHoleRadius := mul_pos hs hb
  constructor
  · intro k hk
    have hne : (p.iterRaw env k).distance ≠ 0 := by
      intro h0; rw [h0] at hk; linarith
    rw [iterRaw_succ, updateRaw_distance, dist1_eq _ hne, iterRaw_speed]
    linarith
  · obtain ⟨N, hN⟩ :=
      exists_nat_ge ((p.distance - blackHoleRadius) / (p.speed * blackHoleRadius))
    have hle : p.distance ≤ blackHoleRadius + N * (p.speed * blackHoleRadius) := by
      rw [div_le_iff₀ hspos] at hN
      linarith
    exact resetCond_within env (p.speed * blackHoleRadius) hspos N p rfl hle

/-- Witness for C1 at a concrete sprite and viewport. -/
theorem claim1_witness :
    0 < sampleParticle.speed ∧ 0 < sampleParticle.distance ∧
    ∃ n : ℕ, 0 < n ∧ resetCond (sampleParticle.iterRaw env0 n) :=
  ⟨by norm_num [sampleParticle], by norm_num [sampleParticle],
    (claim1_updates_eventually_reset env0 sampleParticle
      (by norm_num [sampleParticle]) (by norm_num [sampleParticle])).2⟩

theorem update_of_resetCond (env : Env) (p : Particle) (r : Rand8)
    (h : resetCond (p.updateRaw env)) :
    p.update env r = (p.updateRaw env).reset env r :=
  if_pos h

theorem update_of_not_resetCond (env : Env) (p : Particle) (r : Rand8)
    (h : ¬ resetCond (p.updateRaw env)) :
    p.update env r = p.updateRaw env :=
  if_neg h

theorem reset_image (env : Env) (p : Particle) (r : Rand8) :
    (p.reset env r).image = p.image := rfl

theorem length_updateEach (env : Env) (rs : ℕ → Rand8) :
    ∀ (pool : List Particle) (i : ℕ),
      (updateEach env rs pool i).length = pool.length := by
  intro pool
  induction pool with
  | nil => intro i; rfl
  | cons p ps ih => intro i; simp [updateEach, ih]

theorem sample_dist1 : sampleParticle.dist1 = 149.5 := by
  unfold Particle.dist1
  norm_num [sampleParticle, blackHoleRadius]

theorem sample_not_resetCond : ¬ resetCond (sampleParticle.updateRaw env0) := by
  have hcond : sampleParticle.dist1 < blackHoleRadius * 3 := by
    rw [sample_dist1]; norm_num [blackHoleRadius]
  have hsz : sampleParticle.size1 = 29.4 := by
    unfold Particle.size1
    rw [if_pos hcond]
    norm_num [sampleParticle]
  have hal : sampleParticle.alpha1 = 0.99 := by
    unfold Particle.alpha1
    rw [if_pos hcond]
    norm_num [sampleParticle]
  unfold resetCond
  rw [updateRaw_distance, updateRaw_size, updateRaw_alpha, sample_dist1, hsz, hal]
  push_neg
  refine ⟨by norm_num [blackHoleRadius], by norm_num, by norm_num⟩

/-- C10: whenever the tick does not trigger the internal reset and the
current distance is positive, `update()` changes the distance to exactly
the old distance minus speed times the capture radius — the multiplicative
decay formula is algebraically a constant linear decrement per tick. -/
theorem claim10_linear_decrement (env : Env) (r : Rand8) (p : Particle)
    (hd : 0 < p.distance) (hnr : ¬ resetCond (p.updateRaw env)) :
    (p.update env r).distance = p.distance - p.speed * blackHoleRadius := by
  rw [update_of_not_resetCond env p r hnr, updateRaw_distance,
    dist1_eq p (ne_of_gt hd)]

/-- Witness for C10: the scenario sprite takes the no-reset branch and its
distance drops by exactly speed times the capture radius. -/
theorem claim10_witness :
    0 < sampleParticle.distance ∧
    ¬ resetCond (sampleParticle.updateRaw env0) ∧
    (sampleParticle.update env0 randHalf).distance =
      sampleParticle.distance - sampleParticle.speed * blackHoleRadius :=
  ⟨by norm_num [sampleParticle], sample_not_resetCond,
    claim10_linear_decrement env0 randHalf sampleParticle
      (by norm_num [sampleParticle]) sample_not_resetCond⟩

/-- C5: a sprite with distance 150 and decay speed 0.01 (and a fresh
sprite's size and opacity, so the internal reset cannot fire) has its
distance changed by one `update()` to 150 * (1 - 0.01 * (50 / 150)),
which is exactly 149.5 in exact arithmetic. -/
theorem claim5_scenario (env : Env) (r : Rand8) (p : Particle)
    (hd : p.distance = 150) (hs : p.speed = 0.01)
    (hsize : 20 ≤ p.size) (halpha : p.alpha = 1) :
    (p.update env r).distance = 150 * (1 - 0.01 * (50 / 150)) ∧
    (p.update env r).distance = 149.5 := by
  have hdist : p.dist1 = 149.5 := by
    unfold Particle.dist1
    rw [hd, hs]
    norm_num [blackHoleRadius]
  have hcond : p.dist1 < blackHoleRadius * 3 := by
    rw [hdist]; norm_num [blackHoleRadius]
  have hsz : p.size1 = p.size * 0.98 := by
    unfold Particle.size1; rw [if_pos hcond]
  have hal : p.alpha1 = p.alpha * 0.99 := by
    unfold Particle.alpha1; rw [if_pos hcond]
  have hnr : ¬ resetCond (p.updateRaw env) := by
    unfold resetCond
    rw [updateRaw_distance, updateRaw_size, updateRaw_alpha, hdist, hsz, hal,
      halpha]
    push_neg
    refine ⟨by norm_num [blackHoleRadius], by linarith, by norm_num⟩
  rw [update_of_not_resetCond env p r hnr, updateRaw_distance, hdist]
  norm_num

/-- Witness for C5 at the concrete scenario sprite. -/
theorem claim5_witness :
    sampleParticle.distance = 150 ∧ sampleParticle.speed = 0.01 ∧
    20 ≤ sampleParticle.size ∧ sampleParticle.alpha = 1 ∧
    (sampleParticle.update env0 randHalf).distance = 149.5 :=
  ⟨rfl, rfl, by norm_num [sampleParticle], rfl,
    (claim5_scenario env0 randHalf sampleParticle rfl rfl
      (by norm_num [sampleParticle]) rfl).2⟩

/-- C6: `update()` takes the internal reset branch exactly when, after the
tick's motion and decay are applied, distance is below the capture radius
or size is below 5 or opacity is below 0.1; otherwise it is the plain
ticked state.  In both branches the sprite keeps its image and stays in
the pool: a frame's pool pass preserves the pool's length. -/
theorem claim6_update_reset_characterization (env : Env) (r : Rand8)
    (p : Particle) :
    (resetCond (p.updateRaw env) ↔
      ((p.updateRaw env).distance < blackHoleRadius ∨
        (p.updateRaw env).size < 5 ∨ (p.updateRaw env).alpha < 0.1)) ∧
    (resetCond (p.updateRaw env) →
      p.update env r = (p.updateRaw env).reset env r) ∧
    (¬ resetCond (p.updateRaw env) → p.update env r = p.updateRaw env) ∧
    (p.update env r).image = p.image ∧
    (∀ (pool : List Particle) (rs : ℕ → Rand8) (i : ℕ),
      (updateEach env rs pool i).length = pool.length) := by
  refine ⟨Iff.rfl, update_of_resetCond env p r, update_of_not_resetCond env p r,
    ?_, fun pool rs i => length_updateEach env rs pool i⟩
  by_cases h : resetCond (p.updateRaw env)
  · rw [update_of_resetCond env p r h, reset_image, updateRaw_image]
  · rw [update_of_not_resetCond env p r h, updateRaw_image]

/-- Witness for C6: the scenario sprite does not meet the reset condition,
and applying the characterization shows its `update()` is the raw tick. -/
theorem claim6_witness :
    sampleParticle.update env0 randHalf = sampleParticle.updateRaw env0 :=
  (claim6_update_reset_characterization env0 randHalf sampleParticle).2.2.1
    sample_not_resetCond

theorem trailNext_fifo (env : Env) (p : Particle) (h20 : p.trailLength = 20) :
    p.trailNext env =
      (if 20 ≤ p.trail.length then p.trail.tail else p.trail) ++ [p.snap env] := by
  simp only [Particle.trailNext, h20]
  by_cases h : 20 ≤ p.trail.length
  · have hlt : 20 < (p.trail ++ [p.snap env]).length := by
      simp only [List.length_append, List.length_singleton]
      omega
    rw [if_pos hlt, if_pos h]
    cases htr : p.trail with
    | nil => rw [htr] at h; simp at h
    | cons a l => simp
  · have hlt : ¬ 20 < (p.trail ++ [p.snap env]).length := by
      simp only [List.length_append, List.length_singleton]
      omega
    rw [if_neg hlt, if_neg h]

theorem trailNext_length (env : Env) (p : Particle)
    (hlen : p.trail.length ≤ 20) (h20 : p.trailLength = 20) :
    (p.trailNext env).length ≤ 20 := by
  rw [trailNext_fifo env p h20]
  by_cases h : 20 ≤ p.trail.length
  · rw [if_pos h]
    simp only [List.length_append, List.length_tail, List.length_singleton]
    omega
  · rw [if_neg h]
    simp only [List.length_append, List.length_singleton]
    omega

theorem trailInv_reset (env : Env) (p : Particle) (r : Rand8) :
    TrailInv (p.reset env r) := by
  unfold TrailInv Particle.reset
  simp

theorem trailInv_new (img : ℕ) (env : Env) (r : Rand8) :
    TrailInv (Particle.new img env r) :=
  trailInv_reset env _ r

theorem trailInv_updateRaw (env : Env) (p : Particle) (h : TrailInv p) :
    TrailInv (p.updateRaw env) :=
  ⟨trailNext_length env p h.1 h.2, h.2⟩

theorem trailInv_update (env : Env) (p : Particle) (r : Rand8)
    (h : TrailInv p) : TrailInv (p.update env r) := by
  by_cases hc : resetCond (p.updateRaw env)
  · rw [update_of_resetCond env p r hc]
    exact trailInv_reset env _ r
  · rw [update_of_not_resetCond env p r hc]
    exact trailInv_updateRaw env p h

theorem trailInv_applyOp (env : Env) (p : Particle) (op : Op)
    (h : TrailInv p) : TrailInv (p.applyOp env op) := by
  cases op with
  | reset r => exact trailInv_reset env p r
  | update r => exact trailInv_update env p r h

theorem trailInv_run (env : Env) (ops : List Op) :
    ∀ p : Particle, TrailInv p → TrailInv (p.run env ops) := by
  induction ops with
  | nil => intro p h; exact h
  | cons op ops ih =>
    intro p h
    exact ih (p.applyOp env op) (trailInv_applyOp env p op h)

/-- C2: every sprite state reachable from construction by any sequence of
reset and update operations has a trail of at most 20 entries; and for any
state satisfying that invariant, one tick appends the current render-state
snapshot at the back and removes exactly the front (oldest) entry when and
only when the post-append length exceeds 20 — FIFO eviction. -/
theorem claim2_trail_bounded_fifo (env : Env) (img : ℕ) (r0 : Rand8)
    (ops : List Op) :
    TrailInv ((Particle.new img env r0).run env ops) ∧
    (∀ p : Particle, TrailInv p →
      p.trail.length ≤ 20 ∧
      (p.updateRaw env).trail =
        (if 20 ≤ p.trail.length then p.trail.tail else p.trail) ++
          [p.snap env]) :=
  ⟨trailInv_run env ops _ (trailInv_new img env r0),
    fun p hp => ⟨hp.1, by rw [updateRaw_trail, trailNext_fifo env p hp.2]⟩⟩

/-- Witness for C2 at a concrete sprite state satisfying the invariant. -/
theorem claim2_witness :
    TrailInv sampleParticle ∧
    (sampleParticle.updateRaw env0).trail =
      (if 20 ≤ sampleParticle.trail.length then sampleParticle.trail.tail
        else sampleParticle.trail) ++ [sampleParticle.snap env0] := by
  have h : TrailInv sampleParticle := by
    unfold TrailInv sampleParticle
    simp
  exact ⟨h,
    ((claim2_trail_bounded_fifo env0 0 randHalf []).2 sampleParticle h).2⟩

theorem length_pushIfRoom_le (pool : List Particle) (p : Particle)
    (h : pool.length ≤ 8) : (pushIfRoom pool p).length ≤ 8 := by
  unfold pushIfRoom
  by_cases hl : pool.length < 8
  · rw [if_pos hl]
    simp only [List.length_append, List.length_singleton]
    omega
  · rw [if_neg hl]
    exact h

theorem length_pushIfRoom_add (pool : List Particle) (p : Particle) :
    (pushIfRoom pool p).length ≤ pool.length + 1 := by
  unfold pushIfRoom
  by_cases hl : pool.length < 8
  · rw [if_pos hl]
    simp
  · rw [if_neg hl]
    omega

theorem loadStep_le8 (env : Env) (pool : List Particle) (e : LoadEvent)
    (h : pool.length ≤ 8) : (loadStep env pool e).length ≤ 8 := by
  unfold loadStep
  by_cases hs : e.success
  · rw [if_pos hs]
    exact length_pushIfRoom_le _ _ (length_pushIfRoom_le _ _ h)
  · rw [if_neg hs]
    exact h

theorem loadStep_failure (env : Env) (pool : List Particle) (e : LoadEvent)
    (h : e.success = false) : loadStep env pool e = pool := by
  unfold loadStep
  rw [h]
  simp

theorem loadFold_le8 (env : Env) :
    ∀ (events : List LoadEvent) (pool : List Particle), pool.length ≤ 8 →
      (events.foldl (loadStep env) pool).length ≤ 8 := by
  intro events
  induction events with
  | nil => intro pool h; exact h
  | cons e es ih =>
    intro pool h
    exact ih (loadStep env pool e) (loadStep_le8 env pool e h)

theorem loadFold_allFail (env : Env) :
    ∀ (events : List LoadEvent) (pool : List Particle),
      (∀ e ∈ events, e.success = false) →
      events.foldl (loadStep env) pool = pool := by
  intro events
  induction events with
  | nil => intro pool _; rfl
  | cons e es ih =>
    intro pool h
    have he : e.success = false := h e (List.mem_cons_self e es)
    show es.foldl (loadStep env) (loadStep env pool e) = pool
    rw [loadStep_failure env pool e he]
    exact ih pool fun x hx => h x (List.mem_cons_of_mem e hx)

/-- C3: for every pattern of image-load successes and failures the sprite
pool holds at most 8 sprites; a failed load leaves the pool unchanged; a
successful load appends at most 2 sprites; when every load fails the pool
is empty, and the frame loop's pool pass over the empty pool is a no-op
(no error). -/
theorem claim3_pool_capped (env : Env) (events : List LoadEvent) :
    (loadAll env events).length ≤ 8 ∧
    (∀ (pool : List Particle) (e : LoadEvent), e.success = false →
      loadStep env pool e = pool) ∧
    (∀ (pool : List Particle) (e : LoadEvent),
      (loadStep env pool e).length ≤ pool.length + 2) ∧
    ((∀ e ∈ events, e.success = false) → loadAll env events = []) ∧
    (∀ (rs : ℕ → Rand8) (i : ℕ), updateEach env rs [] i = []) := by
  refine ⟨loadFold_le8 env events [] (by simp), loadStep_failure env, ?_,
    fun h => loadFold_allFail env events [] h, fun rs i => rfl⟩
  intro pool e
  unfold loadStep
  by_cases hs : e.success
  · rw [if_pos hs]
    have h1 := length_pushIfRoom_add pool (Particle.new e.img env e.r1)
    have h2 := length_pushIfRoom_add
      (pushIfRoom pool (Particle.new e.img env e.r1))
      (Particle.new e.img env e.r2)
    omega
  · rw [if_neg hs]
    omega

/-- Witness for C3: with the single failing load outcome, the pool stays
empty. -/
theorem claim3_witness :
    failEvent.success = false ∧ loadAll env0 [failEvent] = [] := by
  have hf : failEvent.success = false := rfl
  exact ⟨hf, (claim3_pool_capped env0 [failEvent]).2.2.2.1
    (by intro e he; simp only [List.mem_singleton] at he; rw [he]; exact hf)⟩

theorem mkStar_x (w h : ℝ) (f : ℕ → ℝ) (i : ℕ) :
    (mkStar w h f i).x = f (4 * i) * w := rfl

theorem mkStar_y (w h : ℝ) (f : ℕ → ℝ) (i : ℕ) :
    (mkStar w h f i).y = f (4 * i + 1) * h := rfl

theorem mkStar_size (w h : ℝ) (f : ℕ → ℝ) (i : ℕ) :
    (mkStar w h f i).size = f (4 * i + 2) * 1 + 0.5 := rfl

theorem mkStar_alpha (w h : ℝ) (f : ℕ → ℝ) (i : ℕ) :
    (mkStar w h f i).alpha = f (4 * i + 3) * 0.5 + 0.5 := rfl

theorem reset_x (env : Env) (p : Particle) (r : Rand8) :
    (p.reset env r).x = r.rx * env.width := rfl

theorem reset_y (env : Env) (p : Particle) (r : Rand8) :
    (p.reset env r).y = r.ry * env.height := rfl

theorem reset_size (env : Env) (p : Particle) (r : Rand8) :
    (p.reset env r).size = r.rsize * 40 + 20 := rfl

theorem reset_rotation (env : Env) (p : Particle) (r : Rand8) :
    (p.reset env r).rotation = r.rrot * Real.pi * 2 := rfl

theorem reset_spinSpeed (env : Env) (p : Particle) (r : Rand8) :
    (p.reset env r).spinSpeed = (r.rspin - 0.5) * 0.1 := rfl

theorem reset_angle (env : Env) (p : Particle) (r : Rand8) :
    (p.reset env r).angle = r.rangle * Real.pi * 2 := rfl

theorem reset_speed (env : Env) (p : Particle) (r : Rand8) :
    (p.reset env r).speed = r.rspeed * 0.005 + 0.01 := rfl

theorem reset_angularSpeed (env : Env) (p : Particle) (r : Rand8) :
    (p.reset env r).angularSpeed = r.rang * 0.02 + 0.01 := rfl

theorem reset_distance (env : Env) (p : Particle) (r : Rand8) :
    (p.reset env r).distance =
      Real.sqrt ((r.rx * env.width - env.centerX) ^ 2 +
        (r.ry * env.height - env.centerY) ^ 2) := rfl

/-- C4 counterexample: on the 2-by-2 viewport with every draw equal to one
half (a legal `Math.random()` outcome), the freshly constructed sprite's
random position is exactly the center, so its distance is 0 — not
strictly positive as the claim states. -/
theorem claim4_counterexample :
    randHalf.Valid ∧
    (Particle.new 0 env0 randHalf).distance = 0 ∧
    ¬ (0 < (Particle.new 0 env0 randHalf).distance) := by
  have h0 : (Particle.new 0 env0 randHalf).distance = 0 := by
    show Real.sqrt ((0.5 * 2 - 1) ^ 2 + (0.5 * 2 - 1) ^ 2) = 0
    rw [show ((0.5 : ℝ) * 2 - 1) = 0 by norm_num]
    rw [show ((0 : ℝ) ^ 2 + 0 ^ 2) = 0 by norm_num]
    exact Real.sqrt_zero
  refine ⟨?_, h0, by rw [h0]; exact lt_irrefl 0⟩
  unfold Rand8.Valid randHalf
  norm_num

/-- C4 (amended): immediately after `reset()` the sprite's distance is
nonnegative and its trail is empty; the distance can be exactly 0 when the
random position lands on the center, so only nonnegativity holds for every
random outcome. -/
theorem claim4_reset_nonneg_and_trail_empty (env : Env) (p : Particle)
    (r : Rand8) :
    0 ≤ (p.reset env r).distance ∧ (p.reset env r).trail = [] :=
  ⟨Real.sqrt_nonneg _, rfl⟩

/-- C7 counterexample: on a zero-width viewport (with the all-zero random
stream) the first generated star has x = 0, which is not strictly below
the width, so the claim fails when quantified over every viewport width. -/
theorem claim7_counterexample :
    mkStar 0 1 zeroStream 0 ∈ generateStars 0 1 zeroStream ∧
    ¬ ((mkStar 0 1 zeroStream 0).x < 0) := by
  constructor
  · unfold generateStars
    exact List.mem_map_of_mem _ (by simp)
  · unfold mkStar zeroStream
    norm_num

/-- C7 (amended): for every positive viewport width and height and every
random stream within the Math.random contract, `generateStars` produces
exactly 500 stars, each with x in the half-open viewport range, y in the
half-open viewport range, size between 0.5 and 1.5, and alpha between 0.5
and 1; and `resize` installs exactly this fresh set, replacing the old
stars wholesale. -/
theorem claim7_stars (w h : ℝ) (f : ℕ → ℝ) (hw : 0 < w) (hh : 0 < h)
    (hf : ∀ i, 0 ≤ f i ∧ f i < 1) :
    (generateStars w h f).length = 500 ∧
    (∀ s ∈ generateStars w h f,
      0 ≤ s.x ∧ s.x < w ∧ 0 ≤ s.y ∧ s.y < h ∧
      0.5 ≤ s.size ∧ s.size ≤ 1.5 ∧ 0.5 ≤ s.alpha ∧ s.alpha ≤ 1) ∧
    (∀ (st : Renderer) (rs : ℕ → Rand8),
      (st.resize w h f rs).stars = generateStars w h f) := by
  refine ⟨by simp [generateStars], ?_, fun st rs => rfl⟩
  intro s hs
  unfold generateStars at hs
  rw [List.mem_map] at hs
  obtain ⟨i, _, rfl⟩ := hs
  obtain ⟨hx0, hx1⟩ := hf (4 * i)
  obtain ⟨hy0, hy1⟩ := hf (4 * i + 1)
  obtain ⟨hs0, hs1⟩ := hf (4 * i + 2)
  obtain ⟨ha0, ha1⟩ := hf (4 * i + 3)
  simp only [mkStar_x, mkStar_y, mkStar_size, mkStar_alpha]
  refine ⟨?_, ?_, ?_, ?_, ?_, ?_, ?_, ?_⟩
  · exact mul_nonneg hx0 hw.le
  · nlinarith
  · exact mul_nonneg hy0 hh.le
  · nlinarith
  · linarith
  · linarith
  · linarith
  · linarith

/-- Witness for C7 on a concrete unit viewport with the all-zero stream. -/
theorem claim7_witness :
    (0 : ℝ) < 1 ∧ (∀ i, 0 ≤ zeroStream i ∧ zeroStream i < 1) ∧
    (generateStars 1 1 zeroStream).length = 500 :=
  ⟨by norm_num, fun i => by norm_num [zeroStream],
    (claim7_stars 1 1 zeroStream (by norm_num) (by norm_num)
      (fun i => by norm_num [zeroStream])).1⟩

/-- C8: for every sprite, viewport with positive dimensions, and random
outcome within the Math.random contract, `reset()` lands every motion
parameter in its specified range, the position inside the viewport, and
sets the distance to the Euclidean distance from the fresh position to the
center. -/
theorem claim8_reset_ranges (env : Env) (p : Particle) (r : Rand8)
    (hr : r.Valid) (hw : 0 < env.width) (hh : 0 < env.height) :
    (20 ≤ (p.reset env r).size ∧ (p.reset env r).size ≤ 60) ∧
    (0 ≤ (p.reset env r).rotation ∧ (p.reset env r).rotation < 2 * Real.pi) ∧
    (-0.05 ≤ (p.reset env r).spinSpeed ∧ (p.reset env r).spinSpeed ≤ 0.05) ∧
    (0 ≤ (p.reset env r).angle ∧ (p.reset env r).angle < 2 * Real.pi) ∧
    (0.01 ≤ (p.reset env r).speed ∧ (p.reset env r).speed ≤ 0.015) ∧
    (0.01 ≤ (p.reset env r).angularSpeed ∧
      (p.reset env r).angularSpeed ≤ 0.03) ∧
    (0 ≤ (p.reset env r).x ∧ (p.reset env r).x < env.width) ∧
    (0 ≤ (p.reset env r).y ∧ (p.reset env r).y < env.height) ∧
    (p.reset env r).distance =
      Real.sqrt (((p.reset env r).x - env.centerX) ^ 2 +
        ((p.reset env r).y - env.centerY) ^ 2) := by
  obtain ⟨⟨hx0, hx1⟩, ⟨hy0, hy1⟩, ⟨hsz0, hsz1⟩, ⟨hrt0, hrt1⟩, ⟨hsp0, hsp1⟩,
    ⟨han0, han1⟩, ⟨hspd0, hspd1⟩, ⟨hang0, hang1⟩⟩ := hr
  have hpi := Real.pi_pos
  simp only [reset_size, reset_rotation, reset_spinSpeed, reset_angle,
    reset_speed, reset_angularSpeed, reset_x, reset_y, reset_distance]
  refine ⟨⟨?_, ?_⟩, ⟨?_, ?_⟩, ⟨?_, ?_⟩, ⟨?_, ?_⟩, ⟨?_, ?_⟩, ⟨?_, ?_⟩,
    ⟨?_, ?_⟩, ⟨?_, ?_⟩, trivial⟩
  · nlinarith
  · nlinarith
  · exact mul_nonneg (mul_nonneg hrt0 hpi.le) (by norm_num)
  · nlinarith
  · nlinarith
  · nlinarith
  · exact mul_nonneg (mul_nonneg han0 hpi.le) (by norm_num)
  · nlinarith
  · nlinarith
  · nlinarith
  · nlinarith
  · nlinarith
  · exact mul_nonneg hx0 hw.le
  · nlinarith
  · exact mul_nonneg hy0 hh.le
  · nlinarith

/-- Witness for C8 on the concrete 2-by-2 viewport and the all-halves
draw. -/
theorem claim8_witness :
    randHalf.Valid ∧ 0 < env0.width ∧ 0 < env0.height ∧
    (20 ≤ (sampleParticle.reset env0 randHalf).size ∧
      (sampleParticle.reset env0 randHalf).size ≤ 60) := by
  have hv : randHalf.Valid := by unfold Rand8.Valid randHalf; norm_num
  have hw : 0 < env0.width := by norm_num [env0]
  have hh : 0 < env0.height := by norm_num [env0]
  exact ⟨hv, hw, hh,
    (claim8_reset_ranges env0 sampleParticle randHalf hv hw hh).1⟩

theorem length_resetEach (env : Env) (rs : ℕ → Rand8) :
    ∀ (pool : List Particle) (i : ℕ),
      (resetEach env rs pool i).length = pool.length := by
  intro pool
  induction pool with
  | nil => intro i; rfl
  | cons p ps ih => intro i; simp [resetEach, ih]

theorem getElem_resetEach (env : Env) (rs : ℕ → Rand8) :
    ∀ (pool : List Particle) (i k : ℕ),
      (resetEach env rs pool i)[k]? =
        (pool[k]?).map (fun q => q.reset env (rs (i + k))) := by
  intro pool
  induction pool with
  | nil => intro i k; simp [resetEach]
  | cons p ps ih =>
    intro i k
    cases k with
    | zero => simp [resetEach]
    | succ k =>
      simp only [resetEach, List.getElem?_cons_succ]
      rw [ih (i + 1) k]
      have : i + 1 + k = i + (k + 1) := by omega
      rw [this]

/-- C9: the resize handler stores the new dimensions with the center at
their midpoint, regenerates the starfield wholesale from the new
dimensions, resets every sprite currently in the pool in place (the pool's
length is unchanged and entry k becomes the reset of old entry k), and
leaves the rest of the renderer state — the pending animation-frame
handle — untouched. -/
theorem claim9_resize (st : Renderer) (w h : ℝ) (f : ℕ → ℝ)
    (rs : ℕ → Rand8) :
    (st.resize w h f rs).env = ⟨w, h, w / 2, h / 2⟩ ∧
    (st.resize w h f rs).stars = generateStars w h f ∧
    (st.resize w h f rs).particles.length = st.particles.length ∧
    (∀ k : ℕ, (st.resize w h f rs).particles[k]? =
      (st.particles[k]?).map
        (fun q => q.reset ⟨w, h, w / 2, h / 2⟩ (rs k))) ∧
    (st.resize w h f rs).animHandle = st.animHandle := by
  refine ⟨rfl, rfl, length_resetEach _ rs st.particles 0, ?_, rfl⟩
  intro k
  have hk := getElem_resetEach ⟨w, h, w / 2, h / 2⟩ rs st.particles 0 k
  rw [Nat.zero_add] at hk
  exact hk

end BlackHole
